import Mathlib

/-!
Verification of the flux embeddings service (`embeddings-svc/main.py`).

The service is shallow-embedded as pure Lean functions:
* Python's `str.strip` becomes `pyStrip` (drop leading and trailing
  whitespace characters, with Python's `str.isspace` character set);
* the `/embed` handler (main.py lines 36-54) becomes `embed`,
  parameterised by the external model's `encode` function; it returns the
  HTTP-level result together with the trace of lock/model events the
  handler performs, so that "the model is never invoked" and "the lock is
  acquired around exactly one encode call" are statable;
* the `/health` handler (main.py lines 31-33) becomes `health`;
* the module-level model loader (main.py lines 18-24) becomes
  `resolveModel`, parameterised by the environment and by `os.path.isdir`;
* the `threading.Lock` discipline around `model.encode`
  (main.py lines 26, 45-52) becomes a transition system (`LockStep`,
  `Reachable`) over per-thread phases of the `with model_lock:` block.
-/

namespace Flux

/-- Characters Python's `str.strip()` removes: the `str.isspace` set. -/
def isPyWs (c : Char) : Bool :=
  c = ' ' || c = '\t' || c = '\n' || c = '\r' || c = '\x0b' || c = '\x0c' ||
  ('\x1c' ≤ c && c ≤ '\x1f') || c = '\x85' || c = '\xa0' ||
  c = '\u1680' || ('\u2000' ≤ c && c ≤ '\u200A') ||
  c = '\u2028' || c = '\u2029' || c = '\u202F' || c = '\u205F' || c = '\u3000'

/-- Drop leading and trailing whitespace from a character list. -/
def stripChars (l : List Char) : List Char :=
  (l.dropWhile isPyWs).rdropWhile isPyWs

/-- Python `t.strip()`: remove leading and trailing whitespace. -/
def pyStrip (s : String) : String :=
  String.mk (stripChars s.data)

/-- `EmbedRequest` (main.py lines 10-11): a pydantic model with a single
field `texts : List[str]`. -/
structure EmbedRequest where
  texts : List String
deriving DecidableEq

/-- Parsing a request body: `Field(default_factory=list)` makes an absent
`texts` field parse to the empty list (main.py line 11). -/
def EmbedRequest.ofBody (body : Option (List String)) : EmbedRequest :=
  ⟨body.getD []⟩

/-- The argument record of the single `model.encode(...)` call site
(main.py lines 46-52). -/
structure EncodeArgs where
  texts : List String
  batch_size : Nat
  show_progress_bar : Bool
  normalize_embeddings : Bool
  convert_to_numpy : Bool
deriving DecidableEq

/-- Observable actions the `/embed` handler performs on the shared lock and
model handle, in order. -/
inductive Event where
  | lockAcquire
  | encodeCall (args : EncodeArgs)
  | lockRelease
deriving DecidableEq

/-- HTTP-level outcome of the `/embed` handler: a 200 response carrying the
embeddings, or an `HTTPException` with a status code and detail message.
`V` abstracts the vector type produced by the external model. -/
inductive EmbedResult (V : Type) where
  | ok (embeddings : List V)
  | clientError (status : Nat) (detail : String)
deriving DecidableEq

/-- `[t.strip() for t in req.texts if t and t.strip()]` (main.py line 41).
A Python string is truthy exactly when it is non-empty. -/
def clean_texts (texts : List String) : List String :=
  (texts.filter (fun t => decide (t ≠ "") && decide (pyStrip t ≠ ""))).map pyStrip

/-- The `/embed` handler (main.py lines 36-54), parameterised by the
model's `encode` function. Returns the HTTP-level result and the ordered
trace of lock/model events. `vectors.tolist()` is the identity at this
level of abstraction (numpy array to nested lists). -/
def embed {V : Type} (encode : EncodeArgs → List V) (req : EmbedRequest) :
    EmbedResult V × List Event :=
  if req.texts = [] then
    (EmbedResult.ok [], [])
  else
    let ct := clean_texts req.texts
    if ct.length ≠ req.texts.length then
      (EmbedResult.clientError 400 "texts must be non-empty strings", [])
    else
      let args : EncodeArgs := ⟨ct, 32, false, false, true⟩
      (EmbedResult.ok (encode args),
       [Event.lockAcquire, Event.encodeCall args, Event.lockRelease])

/-- A `SentenceTransformer(name_or_path, device=...)` constructor call
(main.py lines 22 and 24). -/
structure SentenceTransformerInit where
  model_name_or_path : String
  device : String
deriving DecidableEq

/-- `os.getenv(key, default)`. -/
def getenvD (env : String → Option String) (key dflt : String) : String :=
  (env key).getD dflt

/-- `MODEL_PATH` (main.py line 18). -/
def MODEL_PATH (env : String → Option String) : String :=
  getenvD env "EMBEDDINGS_MODEL_PATH" "/models/all-MiniLM-L6-v2"

/-- `MODEL_NAME` (main.py line 19). -/
def MODEL_NAME (env : String → Option String) : String :=
  getenvD env "EMBEDDINGS_MODEL" "sentence-transformers/all-MiniLM-L6-v2"

/-- The module-level model load (main.py lines 21-24), parameterised by the
process environment and by `os.path.isdir`. -/
def resolveModel (env : String → Option String) (isdir : String → Bool) :
    SentenceTransformerInit :=
  if isdir (MODEL_PATH env) then
    ⟨MODEL_PATH env, "cpu"⟩
  else
    ⟨MODEL_NAME env, "cpu"⟩

/-- Process-wide state after module import: the one model handle, loaded
once before any request is served. -/
structure ServerState where
  model : SentenceTransformerInit
deriving DecidableEq

/-- Module import (main.py lines 18-28): the model is resolved exactly once
and stored in the process-wide state used for the whole process lifetime. -/
def startServer (env : String → Option String) (isdir : String → Bool) : ServerState :=
  ⟨resolveModel env isdir⟩

/-- The payload returned by `/health` (main.py line 33). -/
structure HealthPayload where
  status : String
  model : String
  dimensions : Nat
deriving DecidableEq

/-- The `/health` handler (main.py lines 31-33): a literal payload; it
reads no process state, acquires no lock, touches no model handle. -/
def health (_st : ServerState) : HealthPayload :=
  ⟨"ok", "all-MiniLM-L6-v2", 384⟩

/-- Phase of one request thread relative to the `with model_lock:` block
around `model.encode` (main.py lines 45-52). -/
inductive ThreadPhase where
  | beforeLock
  | inEncode
  | doneOk
  | doneRaised
deriving DecidableEq

/-- Global state of the lock discipline: each thread's phase and whether
`model_lock` is held. -/
structure LockState where
  threads : Nat → ThreadPhase
  locked : Bool

/-- All threads validated and about to enter the `with` block; the lock is
free. -/
def initState : LockState :=
  ⟨fun _ => ThreadPhase.beforeLock, false⟩

/-- Atomic steps of `with model_lock: model.encode(...)`. `acquire` blocks
until the lock is free; the `with` statement releases the lock both when
`encode` returns and when it raises. -/
inductive LockStep : LockState → LockState → Prop where
  | acquire (s : LockState) (i : Nat)
      (h : s.threads i = ThreadPhase.beforeLock) (hl : s.locked = false) :
      LockStep s ⟨Function.update s.threads i ThreadPhase.inEncode, true⟩
  | encodeReturns (s : LockState) (i : Nat)
      (h : s.threads i = ThreadPhase.inEncode) :
      LockStep s ⟨Function.update s.threads i ThreadPhase.doneOk, false⟩
  | encodeRaises (s : LockState) (i : Nat)
      (h : s.threads i = ThreadPhase.inEncode) :
      LockStep s ⟨Function.update s.threads i ThreadPhase.doneRaised, false⟩

/-- States reachable from `initState` by the lock-discipline steps. -/
inductive Reachable : LockState → Prop where
  | init : Reachable initState
  | step {s s' : LockState} : Reachable s → LockStep s s' → Reachable s'

/-- Invariant: when the lock is free nobody is encoding, and at most one
thread is ever inside the encode region. -/
def LockInv (s : LockState) : Prop :=
  (s.locked = false → ∀ i, s.threads i ≠ ThreadPhase.inEncode) ∧
  (∀ i j, s.threads i = ThreadPhase.inEncode →
    s.threads j = ThreadPhase.inEncode → i = j)

/-! ### Helper lemmas about stripping -/

theorem pyStrip_empty : pyStrip "" = "" := rfl

theorem ne_empty_of_pyStrip_ne_empty {t : String} (h : pyStrip t ≠ "") : t ≠ "" :=
  fun he => h (he ▸ pyStrip_empty)

theorem dropWhile_eq_self_of_prefix {p : Char → Bool} {l B : List Char}
    (hl : l.dropWhile p = l) (hp : B <+: l) : B.dropWhile p = B := by
  cases B with
  | nil => rfl
  | cons a B2 =>
    obtain ⟨t2, ht⟩ := hp
    rw [← ht] at hl
    by_cases hpa : p a
    · exfalso
      rw [List.cons_append, List.dropWhile_cons_of_pos hpa] at hl
      have hle := (List.dropWhile_sublist p (l := B2 ++ t2)).length_le
      rw [hl] at hle
      simp at hle
    · exact List.dropWhile_cons_of_neg hpa

theorem stripChars_dropWhile (l : List Char) :
    (stripChars l).dropWhile isPyWs = stripChars l := by
  unfold stripChars
  exact dropWhile_eq_self_of_prefix
    (List.dropWhile_idempotent isPyWs l)
    (List.rdropWhile_prefix isPyWs (l.dropWhile isPyWs))

theorem stripChars_idem (l : List Char) : stripChars (stripChars l) = stripChars l := by
  show ((stripChars l).dropWhile isPyWs).rdropWhile isPyWs = stripChars l
  rw [stripChars_dropWhile]
  exact List.rdropWhile_idempotent isPyWs (l.dropWhile isPyWs)

theorem pyStrip_idem (s : String) : pyStrip (pyStrip s) = pyStrip s :=
  congrArg String.mk (stripChars_idem s.data)

theorem clean_texts_eq_map {l : List String} (hv : ∀ t ∈ l, pyStrip t ≠ "") :
    clean_texts l = l.map pyStrip := by
  unfold clean_texts
  rw [List.filter_eq_self.mpr]
  intro t ht
  have h1 := hv t ht
  have h2 := ne_empty_of_pyStrip_ne_empty h1
  simp [h1, h2]

/-! ### Theorems for the claims -/

/-- C4: a request whose `texts` is empty (including a body with the field
absent, which pydantic defaults to the empty list) yields a 200 response
with an empty embeddings list, with no lock or model event. -/
theorem embed_empty_texts {V : Type} (encode : EncodeArgs → List V) :
    (∀ req : EmbedRequest, req.texts = [] →
      embed encode req = (EmbedResult.ok [], [])) ∧
    embed encode (EmbedRequest.ofBody none) = (EmbedResult.ok [], []) := by
  constructor
  · intro req h
    simp [embed, h]
  · simp [embed, EmbedRequest.ofBody]

/-- C4 witness: the theorem applied to the concrete empty request. -/
theorem embed_empty_texts_witness :
    embed (fun _ => ([] : List Nat)) (EmbedRequest.mk []) = (EmbedResult.ok [], []) :=
  (embed_empty_texts (fun _ => ([] : List Nat))).1 (EmbedRequest.mk []) rfl

/-- C6: the health handler has no failure mode and, for every process
state (so independently of any lock or model handle), returns the fixed
payload with status ok, the model name, and dimensions 384. -/
theorem health_constant :
    (∀ st : ServerState, health st = ⟨"ok", "all-MiniLM-L6-v2", 384⟩) ∧
    (∀ st st2 : ServerState, health st = health st2) :=
  ⟨fun _ => rfl, fun _ _ => rfl⟩

/-- C7: the loader resolves the model from the configured local path
exactly when that path is a directory and otherwise from the hub
identifier, in both cases on CPU; the defaults are the documented ones,
and server startup stores that one resolution in the process state. -/
theorem model_loader_correct (env : String → Option String) (isdir : String → Bool) :
    (resolveModel env isdir).device = "cpu" ∧
    (isdir (MODEL_PATH env) = true →
      resolveModel env isdir = ⟨MODEL_PATH env, "cpu"⟩) ∧
    (isdir (MODEL_PATH env) = false →
      resolveModel env isdir = ⟨MODEL_NAME env, "cpu"⟩) ∧
    (startServer env isdir).model = resolveModel env isdir ∧
    MODEL_PATH (fun _ => none) = "/models/all-MiniLM-L6-v2" ∧
    MODEL_NAME (fun _ => none) = "sentence-transformers/all-MiniLM-L6-v2" := by
  refine ⟨?_, fun h => ?_, fun h => ?_, rfl, rfl, rfl⟩
  · unfold resolveModel
    by_cases h : isdir (MODEL_PATH env) <;> simp [h]
  · simp [resolveModel, h]
  · simp [resolveModel, h]

/-- C7 witness: with an empty environment and no local directory, the
loader falls back to the default hub identifier on CPU. -/
theorem model_loader_correct_witness :
    resolveModel (fun _ => none) (fun _ => false) =
      ⟨"sentence-transformers/all-MiniLM-L6-v2", "cpu"⟩ :=
  (model_loader_correct (fun _ => none) (fun _ => false)).2.2.1 rfl

/-- C9: the embed operation is deterministic: two requests with the same
`texts` produce the same result and the same event trace. -/
theorem embed_deterministic {V : Type} (encode : EncodeArgs → List V)
    (r1 r2 : EmbedRequest) (h : r1.texts = r2.texts) :
    embed encode r1 = embed encode r2 := by
  cases r1 with
  | mk t1 =>
    cases r2 with
    | mk t2 =>
      cases h
      rfl

/-- C9 witness: the theorem applied to two identical concrete requests. -/
theorem embed_deterministic_witness :
    embed (fun _ => ([] : List Nat)) (EmbedRequest.mk ["a"]) =
      embed (fun _ => ([] : List Nat)) (EmbedRequest.mk ["a"]) :=
  embed_deterministic (fun _ => ([] : List Nat))
    (EmbedRequest.mk ["a"]) (EmbedRequest.mk ["a"]) rfl

/-- C10: health reports the hardcoded name and dimensions for every
configuration; in particular, when the environment configures a different
model (here custom-model, loaded from the hub since no local directory
exists), the loaded handle is custom-model while health still reports
all-MiniLM-L6-v2 with dimensions 384. -/
theorem health_model_name_hardcoded :
    (∀ (env : String → Option String) (isdir : String → Bool),
      health (startServer env isdir) = ⟨"ok", "all-MiniLM-L6-v2", 384⟩) ∧
    (startServer (fun k => if k = "EMBEDDINGS_MODEL" then some "custom-model" else none)
        (fun _ => false)).model.model_name_or_path = "custom-model" ∧
    (health (startServer
        (fun k => if k = "EMBEDDINGS_MODEL" then some "custom-model" else none)
        (fun _ => false))).model = "all-MiniLM-L6-v2" := by
  refine ⟨fun _ _ => rfl, ?_, rfl⟩
  simp [startServer, resolveModel, MODEL_PATH, MODEL_NAME, getenvD]

/-- C1: for an accepted request, where every entry of `texts` is non-empty
after stripping, the response is a 200 whose embeddings are exactly the
model encodings of the stripped texts, in input order; in particular the
embeddings list has the same length as `texts`. The hypothesis `henc`
states that the external model encodes a batch elementwise. -/
theorem embed_length_and_order {V : Type} (enc1 : String → V)
    (encode : EncodeArgs → List V)
    (henc : ∀ a, encode a = a.texts.map enc1)
    (req : EmbedRequest) (hv : ∀ t ∈ req.texts, pyStrip t ≠ "") :
    (embed encode req).1 = EmbedResult.ok (req.texts.map fun t => enc1 (pyStrip t)) ∧
    (req.texts.map fun t => enc1 (pyStrip t)).length = req.texts.length := by
  refine ⟨?_, by simp⟩
  by_cases h0 : req.texts = []
  · simp [embed, h0]
  · have hct := clean_texts_eq_map hv
    have hlen : (clean_texts req.texts).length = req.texts.length := by
      rw [hct]; simp
    simp [embed, h0, hct, hlen, henc, List.map_map, Function.comp_def]

/-- C1 witness: the theorem applied to a concrete two-element request and
a concrete elementwise model. -/
theorem embed_length_and_order_witness :
    (embed (fun a => a.texts.map String.length) (EmbedRequest.mk ["hello", " hi "])).1 =
      EmbedResult.ok [5, 2] :=
  ((embed_length_and_order String.length (fun a => a.texts.map String.length)
      (fun _ => rfl) (EmbedRequest.mk ["hello", " hi "]) (by decide)).1).trans (by decide)

/-- C2: when some entry of `texts` strips to the empty string, the whole
request is rejected with status 400 and the fixed detail message, and the
event trace is empty: the lock is never taken and the model's encode is
never invoked. -/
theorem embed_rejects_blank {V : Type} (encode : EncodeArgs → List V)
    (req : EmbedRequest) (t : String) (ht : t ∈ req.texts)
    (hblank : pyStrip t = "") :
    embed encode req =
      (EmbedResult.clientError 400 "texts must be non-empty strings", []) := by
  have h0 : req.texts ≠ [] := List.ne_nil_of_mem ht
  have hlen : (clean_texts req.texts).length ≠ req.texts.length := by
    unfold clean_texts
    rw [List.length_map]
    intro he
    have hall := List.filter_length_eq_length.mp he t ht
    simp [hblank] at hall
  simp [embed, h0, hlen]

/-- C2 witness: a batch mixing a valid string and a whitespace-only string
is rejected wholesale with the fixed message and no model invocation. -/
theorem embed_rejects_blank_witness :
    embed (fun _ => ([] : List Nat)) (EmbedRequest.mk ["hello", "  "]) =
      (EmbedResult.clientError 400 "texts must be non-empty strings", []) :=
  embed_rejects_blank (fun _ => ([] : List Nat)) (EmbedRequest.mk ["hello", "  "])
    "  " (by decide) (by decide)

theorem keep_pyStrip (t : String) :
    (decide (pyStrip t ≠ "") && decide (pyStrip (pyStrip t) ≠ "")) =
    (decide (t ≠ "") && decide (pyStrip t ≠ "")) := by
  by_cases h : t = ""
  · subst h
    simp [pyStrip_empty]
  · by_cases h2 : pyStrip t = ""
    · simp [h, h2, pyStrip_idem]
    · simp [h, h2, pyStrip_idem]

theorem clean_texts_map_strip (l : List String) :
    clean_texts (l.map pyStrip) = clean_texts l := by
  unfold clean_texts
  rw [List.filter_map, List.map_map]
  rw [List.filter_congr (fun t _ => ?_), List.map_congr_left (fun t _ => ?_)]
  · exact pyStrip_idem t
  · exact keep_pyStrip t

/-- C5: embedding already-stripped texts gives exactly the same result and
trace as embedding the raw texts: whitespace is trimmed before encoding,
so leading/trailing whitespace never affects the output. -/
theorem embed_strip_invariance {V : Type} (encode : EncodeArgs → List V)
    (texts : List String) :
    embed encode (EmbedRequest.mk (texts.map pyStrip)) =
      embed encode (EmbedRequest.mk texts) := by
  by_cases h0 : texts = []
  · subst h0
    rfl
  · have h0m : texts.map pyStrip ≠ [] := by simpa using h0
    have hct := clean_texts_map_strip texts
    simp [embed, h0, h0m, hct]

/-- C8: an accepted non-empty request produces the event trace acquire,
one single encode call on the stripped batch with batch size 32, progress
reporting off and normalization off, then release. -/
theorem embed_encode_call {V : Type} (encode : EncodeArgs → List V)
    (req : EmbedRequest) (hne : req.texts ≠ [])
    (hv : ∀ t ∈ req.texts, pyStrip t ≠ "") :
    (embed encode req).2 =
      [Event.lockAcquire,
       Event.encodeCall ⟨req.texts.map pyStrip, 32, false, false, true⟩,
       Event.lockRelease] := by
  have hct := clean_texts_eq_map hv
  have hlen : (clean_texts req.texts).length = req.texts.length := by
    rw [hct]; simp
  simp [embed, hne, hct, hlen]

/-- C8 witness: the theorem applied to a concrete one-element request. -/
theorem embed_encode_call_witness :
    (embed (fun _ => ([] : List Nat)) (EmbedRequest.mk ["hello"])).2 =
      [Event.lockAcquire,
       Event.encodeCall ⟨["hello"], 32, false, false, true⟩,
       Event.lockRelease] :=
  (embed_encode_call (fun _ => ([] : List Nat)) (EmbedRequest.mk ["hello"])
    (by decide) (by decide)).trans (by decide)

theorem lockInv_init : LockInv initState := by
  constructor
  · intro _ i
    simp [initState]
  · intro i j hi _
    simp [initState] at hi

theorem lockInv_step {s s2 : LockState} (hs : LockInv s) (st : LockStep s s2) :
    LockInv s2 := by
  cases st with
  | acquire i h hl =>
    constructor
    · intro hfalse
      simp at hfalse
    · intro k m hk hm
      dsimp only at hk hm
      by_cases hki : k = i
      · by_cases hmi : m = i
        · rw [hki, hmi]
        · rw [Function.update_noteq hmi] at hm
          exact absurd hm (hs.1 hl m)
      · rw [Function.update_noteq hki] at hk
        exact absurd hk (hs.1 hl k)
  | encodeReturns i h =>
    have hnone : ∀ k, Function.update s.threads i ThreadPhase.doneOk k ≠
        ThreadPhase.inEncode := by
      intro k
      by_cases hki : k = i
      · subst hki
        rw [Function.update_same]
        intro hcon
        exact ThreadPhase.noConfusion hcon
      · rw [Function.update_noteq hki]
        intro hk
        exact hki (hs.2 k i hk h)
    exact ⟨fun _ k => hnone k, fun k m hk _ => absurd hk (hnone k)⟩
  | encodeRaises i h =>
    have hnone : ∀ k, Function.update s.threads i ThreadPhase.doneRaised k ≠
        ThreadPhase.inEncode := by
      intro k
      by_cases hki : k = i
      · subst hki
        rw [Function.update_same]
        intro hcon
        exact ThreadPhase.noConfusion hcon
      · rw [Function.update_noteq hki]
        intro hk
        exact hki (hs.2 k i hk h)
    exact ⟨fun _ k => hnone k, fun k m hk _ => absurd hk (hnone k)⟩

theorem reachable_lockInv {s : LockState} (h : Reachable s) : LockInv s := by
  induction h with
  | init => exact lockInv_init
  | step _ st ih => exact lockInv_step ih st

/-- C3: in every reachable state of the lock discipline at most one thread
is inside the encode region (mutual exclusion), and every step by which a
thread leaves the encode region, whether encode returned or raised, leaves
the lock released. -/
theorem encode_mutual_exclusion :
    (∀ s : LockState, Reachable s → ∀ i j : Nat,
      s.threads i = ThreadPhase.inEncode → s.threads j = ThreadPhase.inEncode →
      i = j) ∧
    (∀ (s s2 : LockState) (i : Nat), LockStep s s2 →
      s.threads i = ThreadPhase.inEncode →
      s2.threads i ≠ ThreadPhase.inEncode → s2.locked = false) := by
  constructor
  · intro s hs i j hi hj
    exact (reachable_lockInv hs).2 i j hi hj
  · intro s s2 i hstep hin hout
    cases hstep with
    | acquire j hb hl =>
      exfalso
      apply hout
      show Function.update s.threads j ThreadPhase.inEncode i = ThreadPhase.inEncode
      by_cases hij : i = j
      · subst hij
        exact Function.update_same i ThreadPhase.inEncode s.threads
      · rw [Function.update_noteq hij]
        exact hin
    | encodeReturns j hb => rfl
    | encodeRaises j hb => rfl

/-- C3 witness: the mutual-exclusion part applied to the concrete
reachable state in which thread 0 has acquired the lock. -/
theorem encode_mutual_exclusion_witness : (0 : Nat) = 0 :=
  encode_mutual_exclusion.1 _
    (Reachable.step Reachable.init (LockStep.acquire initState 0 rfl rfl))
    0 0 (Function.update_same 0 ThreadPhase.inEncode initState.threads)
    (Function.update_same 0 ThreadPhase.inEncode initState.threads)

end Flux
